import Mathlib

/-!
Verification of the dev-browser session server (lockdown-mode control plane).

The definitions below are a shallow embedding of the TypeScript source
(src/unnamed/part_000): JavaScript strings are modelled as Lean `String`
(a wrapper around `List Char`), with the JS string methods used by the
source (`toLowerCase`, `startsWith`, `endsWith`, `slice`) translated to
executable Lean functions on the underlying character lists.  URL parsing
(`new URL`) is an external library call; a handler that parses a URL is
therefore parameterised by the parse result (`Option ParsedUrl`).
HTTP handlers become pure functions from their inputs (registry contents,
request body fields, page-side state) to an outcome record carrying the
HTTP status and the externally visible effect (navigation performed,
element clicked, file written, ...).  Concurrency (spec section 5) is
cooperative single-threaded interleaving at await points, modelled by
explicit schedules over per-request step functions.
-/

namespace DevBrowser

/-- Models JS `String.prototype.toLowerCase` (character-wise case folding). -/
def toLowerJS (s : String) : String := ⟨s.data.map Char.toLower⟩

/-- Models JS `String.prototype.startsWith`. -/
def startsWithJS (s pre : String) : Bool := pre.data.isPrefixOf s.data

/-- Models JS `String.prototype.endsWith`. -/
def endsWithJS (s suf : String) : Bool := suf.data.isSuffixOf s.data

/-- Models JS `String.prototype.slice(n)` (drop the first `n` characters). -/
def sliceFrom (s : String) (n : Nat) : String := ⟨s.data.drop n⟩

/-- The fields of a successfully parsed URL that `isAllowedUrl` inspects.
Per the WHATWG URL API, `protocol` carries the trailing colon
(for example "https:"). -/
structure ParsedUrl where
  protocol : String
  hostname : String

/-- One allowlist entry test, the body of the `allowedHosts.some` callback
in `isAllowedUrl` (src/unnamed/part_000 lines 287-294):

  const a = allowed.toLowerCase();
  if (a.startsWith("*.")) {
    const suffix = a.slice(1); // ".example.com"
    return hostname.endsWith(suffix) && hostname !== suffix.slice(1);
  }
  return hostname === a;
-/
def hostMatches (hostname allowed : String) : Bool :=
  let a := toLowerJS allowed
  if startsWithJS a "*." then
    let suffix := sliceFrom a 1
    endsWithJS hostname suffix && hostname != sliceFrom suffix 1
  else hostname == a

/-- `isAllowedUrl` (src/unnamed/part_000 lines 274-295).  The `new URL(url)`
parse (an external library call) is passed in as `parsed`; the
`catch { return false }` branch is the `none` case. -/
def isAllowedUrl (parsed : Option ParsedUrl) (allowedHosts : List String) : Bool :=
  match parsed with
  | none => false
  | some p =>
    let protocol := toLowerJS p.protocol
    if protocol == "data:" || protocol == "blob:" then true
    else if protocol != "http:" && protocol != "https:" then false
    else
      let hostname := toLowerJS p.hostname
      allowedHosts.any fun allowed => hostMatches hostname allowed

/-- A JSON request-body field as the handlers see it: a string, a boolean,
or some other JSON value; an absent field is `Option.none` at use sites. -/
inductive JsVal where
  | str (s : String)
  | bool (b : Bool)
  | other
deriving DecidableEq

/-- The `/^e\d+$/` shape test on a reference string (click-ref and
fill-ref handlers, lines 461 and 497). -/
def refShapeOk (s : String) : Bool :=
  match s.data with
  | 'e' :: rest => !rest.isEmpty && rest.all Char.isDigit
  | _ => false

/-- Outcome of the goto handler: HTTP status, and the url passed to
`page.goto` when navigation was invoked (`none` when it never ran). -/
structure GotoOutcome where
  status : Nat
  navigated : Option String
deriving DecidableEq

/-- POST /pages/:name/goto handler (lines 402-425), lockdown mode.  The
registry is modelled by its key set `pages`; `parse` models `new URL`. -/
def gotoHandler (pages : List String) (name : String) (urlField : Option JsVal)
    (parse : String → Option ParsedUrl) (allowedHosts : List String) : GotoOutcome :=
  if pages.contains name then
    match urlField with
    | some (JsVal.str url) =>
      if url.length = 0 ∨ 2048 < url.length then ⟨400, none⟩
      else if isAllowedUrl (parse url) allowedHosts = false then ⟨403, none⟩
      else ⟨200, some url⟩
    | _ => ⟨400, none⟩
  else ⟨404, none⟩

/-- What a stored reference in the page's `__devBrowserRefs` table resolves
to: a live element (`handle.asElement()` non-null) or a value that is no
longer an element (`asElement()` null). -/
inductive RefEntry where
  | element
  | detached
deriving DecidableEq

/-- Outcome of a click-ref / fill-ref request: HTTP status, the `error`
field of the JSON body (if any), and whether the DOM action
(click / fill) was performed. -/
structure ActionOutcome where
  status : Nat
  errorMsg : Option String
  acted : Bool
deriving DecidableEq

/-- POST /pages/:name/click-ref handler (lines 451-485), lockdown mode.
`refsTable` is the page-side `__devBrowserRefs` table (`none` when no
snapshot has installed it).  When the in-page lookup function throws
("No snapshot refs found..." when the table is missing, or the ref is
not in the table), `evaluateHandle` rejects and the promise error is
caught by `asyncHandler` (lines 332-339), which answers
500 "internal error". -/
def clickRefHandler (pages : List String) (name : String) (refField : Option JsVal)
    (refsTable : Option (List (String × RefEntry))) : ActionOutcome :=
  if pages.contains name then
    match refField with
    | some (JsVal.str ref) =>
      if refShapeOk ref then
        match refsTable with
        | none => ⟨500, some "internal error", false⟩
        | some refs =>
          match refs.lookup ref with
          | none => ⟨500, some "internal error", false⟩
          | some RefEntry.detached => ⟨404, some "ref did not resolve to an element", false⟩
          | some RefEntry.element => ⟨200, none, true⟩
      else ⟨400, some "ref is required and must look like e123", false⟩
    | _ => ⟨400, some "ref is required and must look like e123", false⟩
  else ⟨404, some "page not found", false⟩

/-- POST /pages/:name/fill-ref handler (lines 487-525), lockdown mode.
Identical reference resolution to click-ref, with an additional
typeof-string check on `text` between the ref check and the lookup. -/
def fillRefHandler (pages : List String) (name : String)
    (refField textField : Option JsVal)
    (refsTable : Option (List (String × RefEntry))) : ActionOutcome :=
  if pages.contains name then
    match refField with
    | some (JsVal.str ref) =>
      if refShapeOk ref then
        match textField with
        | some (JsVal.str _) =>
          match refsTable with
          | none => ⟨500, some "internal error", false⟩
          | some refs =>
            match refs.lookup ref with
            | none => ⟨500, some "internal error", false⟩
            | some RefEntry.detached => ⟨404, some "ref did not resolve to an element", false⟩
            | some RefEntry.element => ⟨200, none, true⟩
        | _ => ⟨400, some "text is required and must be a string", false⟩
      else ⟨400, some "ref is required and must look like e123", false⟩
    | _ => ⟨400, some "ref is required and must look like e123", false⟩
  else ⟨404, some "page not found", false⟩

/-- The characters removed from the front of a screenshot path by the
`replace` of the leading run of [/\\] characters in `resolveTmpPath`
(line 323). -/
def isSepChar (c : Char) : Bool := c = '/' || c = '\\'

/-- `relativePath.replace(leading [/\\] run, "")` of line 323. -/
def stripLeadingSeps (s : String) : String := ⟨s.data.dropWhile isSepChar⟩

/-- Node path segmentation: split on the POSIX separator. -/
def splitSlash (s : String) : List String := (s.data.splitOn '/').map String.mk

/-- One step of Node `path.resolve` normalisation over segments: empty and
"." segments vanish, ".." pops the last kept segment (and keeps the
filesystem root when there is nothing to pop, as `resolve` does), any
other segment is appended. -/
def normStep (acc : List String) (seg : String) : List String :=
  if seg = "" ∨ seg = "." then acc
  else if seg = ".." then acc.dropLast
  else acc ++ [seg]

/-- Node `path.resolve` of an absolute path given as its segment list. -/
def normalizeSegs (segs : List String) : List String := segs.foldl normStep []

/-- `resolveTmpPath` (src/unnamed/part_000 lines 316-330).  Absolute paths
are modelled as segment lists: `tmpDir` is the segment list of the
artifact root and the result the segment list of the resolved absolute
path.  The source's containment test
`(abs + sep).startsWith(resolve(tmpDir) + sep)` on separator-terminated
absolute path strings is exactly the segment-list test
`root.isPrefixOf abs` (segments are nonempty and separator-free).
The typeof-string half of the first guard is carried by the type of
`relativePath`. -/
def resolveTmpPath (tmpDir : List String) (relativePath : String) :
    Except String (List String) :=
  if relativePath = "" then Except.error "path is required and must be a string"
  else if relativePath.data.contains '\x00' then Except.error "invalid path"
  else
    let clean := stripLeadingSeps relativePath
    let abs := normalizeSegs (tmpDir ++ splitSlash clean)
    let root := normalizeSegs tmpDir
    if root.isPrefixOf abs then Except.ok abs
    else Except.error "path must stay within tmpDir"

/-- `typeof fullPage === "boolean" ? fullPage : false` (line 561). -/
def fullPageBool : Option JsVal → Bool
  | some (JsVal.bool b) => b
  | _ => false

/-- Outcome of a screenshot request: HTTP status, the absolute path written
to (also returned in the response body) when the screenshot ran, and the
fullPage flag passed to `page.screenshot`. -/
structure ScreenshotOutcome where
  status : Nat
  written : Option (List String)
  fullPage : Bool
deriving DecidableEq

/-- POST /pages/:name/screenshot handler (lines 546-565), lockdown mode.
A `resolveTmpPath` throw propagates to `asyncHandler`, which answers
500 "internal error". -/
def screenshotHandler (pages : List String) (name : String)
    (pathField fullPageField : Option JsVal) (tmpDir : List String) :
    ScreenshotOutcome :=
  if pages.contains name then
    match pathField with
    | some (JsVal.str p) =>
      if p.length = 0 ∨ 256 < p.length then ⟨400, none, false⟩
      else
        match resolveTmpPath tmpDir p with
        | Except.error _ => ⟨500, none, false⟩
        | Except.ok abs => ⟨200, some abs, fullPageBool fullPageField⟩
    | _ => ⟨400, none, false⟩
  else ⟨404, none, false⟩

/-- Outcome of DELETE /pages/:name: HTTP status and the page whose
`page.close()` was invoked, if any. -/
structure DeleteOutcome where
  status : Nat
  closedPage : Option Nat
deriving DecidableEq

/-- DELETE /pages/:name handler (lines 569-584).  The registry is an
association list from name to page id (the JS Map has unique keys;
`registry.delete(name)` is modelled by filtering the key out). -/
def deleteHandler (registry : List (String × Nat)) (name : String) :
    List (String × Nat) × DeleteOutcome :=
  match registry.lookup name with
  | some pid => (registry.filter (fun e => e.1 != name), ⟨200, some pid⟩)
  | none => (registry, ⟨404, none⟩)

/-- State of the get-or-create race for one fixed name in cdp mode: the
registry slot for that name (the stored targetId) and how many pages the
engine has created.  The engine hands out target ids per page; page
number `n` gets `tidOf n`. -/
structure RaceState where
  slot : Option String
  pagesCreated : Nat
deriving DecidableEq

/-- A concrete injective target-id assignment for the race model (distinct
pages have distinct CDP target ids). -/
def tidOf (n : Nat) : String := ⟨'t' :: List.replicate n 'x'⟩

/-- Phases of one POST /pages request for the contended name: not yet run;
past the `registry.get(name)` miss and suspended at the awaited
`context.newPage()` (line 381); finished, holding the target id it
returns to its caller. -/
inductive ReqPhase where
  | start
  | creating
  | done (tid : String)
deriving DecidableEq

/-- One scheduler step of a request against lines 377-390: from `start` it
performs `registry.get(name)` and either finishes with the existing
entry's target id or suspends at `newPage`; from `creating` the awaited
creation completes, the target id is resolved and the entry stored
(`registry.set`), overwriting whatever is there. -/
def reqStep (s : RaceState) (r : ReqPhase) : RaceState × ReqPhase :=
  match r with
  | ReqPhase.start =>
    match s.slot with
    | some t => (s, ReqPhase.done t)
    | none => (s, ReqPhase.creating)
  | ReqPhase.creating =>
    let t := tidOf s.pagesCreated
    ({ slot := some t, pagesCreated := s.pagesCreated + 1 }, ReqPhase.done t)
  | ReqPhase.done t => (s, ReqPhase.done t)

/-- Run two interleaved requests under a schedule (cooperative
single-threaded interleaving at await points, spec section 5):
`false` steps request 1, `true` steps request 2. -/
def runSched : List Bool → RaceState → ReqPhase → ReqPhase →
    RaceState × ReqPhase × ReqPhase
  | [], s, r1, r2 => (s, r1, r2)
  | false :: rest, s, r1, r2 =>
    let p := reqStep s r1
    runSched rest p.1 p.2 r2
  | true :: rest, s, r1, r2 =>
    let p := reqStep s r2
    runSched rest p.1 r1 p.2

/-- A registry entry (`PageEntry`, lines 230-233): the page (by id) and
its stored targetId.  The stored field has JS type string; it is wrapped
in `Option` to express the spec's `string | null` data model, and the
code always stores `some`. -/
structure Sess where
  pageId : Nat
  targetId : Option String
deriving DecidableEq

/-- The registry, plus the engine's page counter (fresh pages get fresh
ids). -/
structure SessState where
  entries : List (String × Sess)
  next : Nat
deriving DecidableEq

/-- Registry-mutating events: a get-or-create that misses, an explicit
DELETE, and the page close callback of line 387. -/
inductive RegOp where
  | create (name : String)
  | remove (name : String)
  | closed (name : String)

/-- Apply one registry event (lines 377-390, 569-584).  On a create miss,
the stored targetId is the string interpolation of line 382 in lockdown
mode and the engine-resolved id (`resolveId` models `getTargetId`,
lines 239-250) otherwise. -/
def applyOp (lockdown : Bool) (resolveId : Nat → String) (st : SessState) :
    RegOp → SessState
  | RegOp.create n =>
    match st.entries.lookup n with
    | some _ => st
    | none =>
      let pid := st.next
      let t := if lockdown then "lockdown:" ++ n else resolveId pid
      { entries := (n, ⟨pid, some t⟩) :: st.entries, next := st.next + 1 }
  | RegOp.remove n => { st with entries := st.entries.filter (fun e => e.1 != n) }
  | RegOp.closed n => { st with entries := st.entries.filter (fun e => e.1 != n) }

/-- Run a sequence of registry events from the empty registry. -/
def runOps (lockdown : Bool) (resolveId : Nat → String) (ops : List RegOp) :
    SessState :=
  ops.foldl (applyOp lockdown resolveId) ⟨[], 0⟩

/-- The targetId member of the POST /pages response (line 395): the spread
`...(lockdown ? {} : { targetId: entry.targetId })`. -/
def respTargetId (lockdown : Bool) (stored : String) : Option String :=
  if lockdown then none else some stored

/-- Registry invariant: every entry's page id is below the engine counter,
its stored targetId is exactly what the create path stores, and page ids
are pairwise distinct across live entries. -/
def SessInv (lockdown : Bool) (resolveId : Nat → String) (st : SessState) : Prop :=
  (∀ e ∈ st.entries,
      e.2.pageId < st.next
      ∧ e.2.targetId
          = some (if lockdown then "lockdown:" ++ e.1 else resolveId e.2.pageId))
  ∧ st.entries.Pairwise (fun a b => a.2.pageId ≠ b.2.pageId)

/-- The observable steps of the `cleanup` closure (lines 599-633), in
program order.  `closePage` and `closeContext` carry whether the awaited
close succeeded (their failures are swallowed by try/catch).
`closeServer` is `server.close()`: the only step that stops the listener
accepting new connections. -/
inductive CleanupStep where
  | destroyConnections
  | closePage (pid : Nat) (ok : Bool)
  | clearRegistry
  | closeContext (ok : Bool)
  | closeServer
deriving DecidableEq

/-- The kind of a cleanup step, with success flags erased. -/
def stepTag : CleanupStep → Nat
  | CleanupStep.destroyConnections => 0
  | CleanupStep.closePage _ _ => 1
  | CleanupStep.clearRegistry => 2
  | CleanupStep.closeContext _ => 3
  | CleanupStep.closeServer => 4

/-- The `cleanup` closure (lines 599-633): guarded by the `cleaningUp`
flag; destroys every tracked socket, best-effort closes each registered
page, clears the registry, best-effort closes the context, then calls
`server.close()`.  `pageFails` and `ctxFails` say which awaited closes
throw; the returned trace records each step in execution order.  The
first component is the `cleaningUp` flag after the call. -/
def cleanupRun (cleaningUp : Bool) (pages : List Nat)
    (pageFails : Nat → Bool) (ctxFails : Bool) : Bool × List CleanupStep :=
  if cleaningUp then (true, [])
  else
    (true,
      CleanupStep.destroyConnections
        :: pages.map (fun p => CleanupStep.closePage p (!pageFails p))
        ++ [CleanupStep.clearRegistry, CleanupStep.closeContext (!ctxFails),
            CleanupStep.closeServer])

/-! ## Helper lemmas -/

theorem toLowerJS_data (s : String) :
    (toLowerJS s).data = s.data.map Char.toLower := rfl

theorem toLowerJS_mk (l : List Char) : toLowerJS ⟨l⟩ = ⟨l.map Char.toLower⟩ := rfl

theorem endsWithJS_mk (h : String) (l : List Char) :
    endsWithJS h ⟨l⟩ = l.isSuffixOf h.data := rfl

/-- On an http/https protocol, `isAllowedUrl` is the allowlist scan. -/
theorem isAllowedUrl_http (p : ParsedUrl) (hosts : List String)
    (h : toLowerJS p.protocol = "http:" ∨ toLowerJS p.protocol = "https:") :
    isAllowedUrl (some p) hosts
      = hosts.any (fun allowed => hostMatches (toLowerJS p.hostname) allowed) := by
  rcases h with h | h <;> simp [isAllowedUrl, h]

/-- The wildcard branch of `hostMatches`, with the entry written as
star-dot-X. -/
theorem hostMatches_wildcard (hostname : String) (X : List Char) :
    hostMatches hostname ⟨'*' :: '.' :: X⟩
      = (('.' :: X.map Char.toLower).isSuffixOf hostname.data
          && hostname != ⟨X.map Char.toLower⟩) := by
  have hstar : Char.toLower '*' = '*' := by decide
  have hdot : Char.toLower '.' = '.' := by decide
  have hpre : startsWithJS (⟨'*' :: '.' :: X.map Char.toLower⟩ : String) "*." = true := by
    simp only [startsWithJS]
    exact List.isPrefixOf_iff_prefix.mpr ⟨X.map Char.toLower, rfl⟩
  simp only [hostMatches, toLowerJS_mk, List.map_cons, hstar, hdot, hpre, if_true]
  rfl

/-- The literal branch of `hostMatches`. -/
theorem hostMatches_literal (hostname a : String)
    (h : startsWithJS (toLowerJS a) "*." = false) :
    hostMatches hostname a = (hostname == toLowerJS a) := by
  simp only [hostMatches, h]
  simp

/-! ## Claims about the allowlist matcher -/

/-- Claim C1: for every allowlist containing a wildcard entry star-dot-X,
`isAllowedUrl` accepts an http/https URL whose case-folded hostname is a
strict subdomain of X, rejects the bare parent domain X itself, rejects a
hostname that merely ends with the characters of X without a dot boundary,
and a literal entry matches only on exact case-folded hostname equality. -/
theorem c1_wildcard_matching :
    (∀ (hosts : List String) (X w : List Char) (proto host : String),
      (⟨'*' :: '.' :: X⟩ : String) ∈ hosts →
      toLowerJS proto = "http:" ∨ toLowerJS proto = "https:" →
      w ≠ [] →
      host.data.map Char.toLower = w ++ '.' :: X.map Char.toLower →
      isAllowedUrl (some ⟨proto, host⟩) hosts = true)
  ∧ (∀ (X : List Char) (proto host : String),
      toLowerJS proto = "http:" ∨ toLowerJS proto = "https:" →
      host.data.map Char.toLower = X.map Char.toLower →
      isAllowedUrl (some ⟨proto, host⟩) [⟨'*' :: '.' :: X⟩] = false)
  ∧ (∀ (X : List Char) (proto host : String),
      toLowerJS proto = "http:" ∨ toLowerJS proto = "https:" →
      (X.map Char.toLower).isSuffixOf (host.data.map Char.toLower) = true →
      host.data.map Char.toLower ≠ X.map Char.toLower →
      ('.' :: X.map Char.toLower).isSuffixOf (host.data.map Char.toLower) = false →
      isAllowedUrl (some ⟨proto, host⟩) [⟨'*' :: '.' :: X⟩] = false)
  ∧ (∀ (a proto host : String),
      startsWithJS (toLowerJS a) "*." = false →
      toLowerJS proto = "http:" ∨ toLowerJS proto = "https:" →
      (isAllowedUrl (some ⟨proto, host⟩) [a] = true ↔ toLowerJS host = toLowerJS a)) := by
  refine ⟨?_, ?_, ?_, ?_⟩
  · intro hosts X w proto host hmem hproto hw hhost
    rw [isAllowedUrl_http ⟨proto, host⟩ hosts hproto]
    apply List.any_eq_true.mpr
    refine ⟨⟨'*' :: '.' :: X⟩, hmem, ?_⟩
    rw [hostMatches_wildcard]
    have h2 : toLowerJS host = ⟨w ++ '.' :: X.map Char.toLower⟩ :=
      congrArg String.mk hhost
    rw [h2]
    rw [Bool.and_eq_true]
    constructor
    · exact List.isSuffixOf_iff_suffix.mpr (List.suffix_append w ('.' :: X.map Char.toLower))
    · apply bne_iff_ne.mpr
      intro he
      have hd : w ++ '.' :: X.map Char.toLower = X.map Char.toLower :=
        congrArg String.data he
      have hl := congrArg List.length hd
      simp [List.length_append] at hl
      omega
  · intro X proto host hproto hhost
    rw [isAllowedUrl_http ⟨proto, host⟩ _ hproto]
    simp only [List.any_cons, List.any_nil, Bool.or_false]
    have h2 : toLowerJS host = ⟨X.map Char.toLower⟩ := congrArg String.mk hhost
    rw [h2, hostMatches_wildcard]
    have hsuf : ('.' :: X.map Char.toLower).isSuffixOf (X.map Char.toLower) = false := by
      rw [Bool.eq_false_iff]
      intro hc
      have hle := (List.isSuffixOf_iff_suffix.mp hc).length_le
      simp at hle
    simp [hsuf]
  · intro X proto host hproto _hends _hne hnodot
    rw [isAllowedUrl_http ⟨proto, host⟩ _ hproto]
    simp only [List.any_cons, List.any_nil, Bool.or_false]
    rw [hostMatches_wildcard]
    have h3 : ('.' :: X.map Char.toLower).isSuffixOf (toLowerJS host).data = false := by
      rw [toLowerJS_data]
      exact hnodot
    simp [h3]
  · intro a proto host hstar hproto
    rw [isAllowedUrl_http ⟨proto, host⟩ _ hproto]
    simp only [List.any_cons, List.any_nil, Bool.or_false]
    rw [hostMatches_literal _ _ hstar]
    exact beq_iff_eq

/-- Witness for C1 at the spec's own examples, allowlist
star-dot-example.com: a.example.com and a.b.example.com match,
example.com and evilexample.com do not, and the literal entry
example.com matches Example.COM exactly up to case folding. -/
theorem c1_wildcard_matching_witness :
    isAllowedUrl (some ⟨"https:", "a.example.com"⟩) ["*.example.com"] = true
  ∧ isAllowedUrl (some ⟨"https:", "a.b.example.com"⟩) ["*.example.com"] = true
  ∧ isAllowedUrl (some ⟨"https:", "example.com"⟩) ["*.example.com"] = false
  ∧ isAllowedUrl (some ⟨"https:", "evilexample.com"⟩) ["*.example.com"] = false
  ∧ isAllowedUrl (some ⟨"https:", "Example.COM"⟩) ["example.com"] = true := by
  refine ⟨?_, ?_, ?_, ?_, ?_⟩
  · exact c1_wildcard_matching.1 ["*.example.com"] "example.com".data "a".data
      "https:" "a.example.com" (by decide) (Or.inr (by decide)) (by decide) (by decide)
  · exact c1_wildcard_matching.1 ["*.example.com"] "example.com".data "a.b".data
      "https:" "a.b.example.com" (by decide) (Or.inr (by decide)) (by decide) (by decide)
  · exact c1_wildcard_matching.2.1 "example.com".data "https:" "example.com"
      (Or.inr (by decide)) (by decide)
  · exact c1_wildcard_matching.2.2.1 "example.com".data "https:" "evilexample.com"
      (Or.inr (by decide)) (by decide) (by decide) (by decide)
  · exact (c1_wildcard_matching.2.2.2 "example.com" "https:" "Example.COM"
      (by decide) (Or.inr (by decide))).mpr (by decide)

/-- Claim C7: `isAllowedUrl` rejects strings that do not parse as a URL,
always accepts data: and blob: URLs regardless of the allowlist, rejects
every other scheme that is not http or https, and checks only http/https
URLs against the host allowlist. -/
theorem c7_scheme_gate :
    (∀ hosts : List String, isAllowedUrl none hosts = false)
  ∧ (∀ (p : ParsedUrl) (hosts : List String),
      toLowerJS p.protocol = "data:" ∨ toLowerJS p.protocol = "blob:" →
      isAllowedUrl (some p) hosts = true)
  ∧ (∀ (p : ParsedUrl) (hosts : List String),
      toLowerJS p.protocol ≠ "data:" → toLowerJS p.protocol ≠ "blob:" →
      toLowerJS p.protocol ≠ "http:" → toLowerJS p.protocol ≠ "https:" →
      isAllowedUrl (some p) hosts = false)
  ∧ (∀ (p : ParsedUrl) (hosts : List String),
      toLowerJS p.protocol = "http:" ∨ toLowerJS p.protocol = "https:" →
      isAllowedUrl (some p) hosts
        = hosts.any (fun allowed => hostMatches (toLowerJS p.hostname) allowed)) := by
  refine ⟨fun _ => rfl, ?_, ?_, fun p hosts h => isAllowedUrl_http p hosts h⟩
  · intro p hosts h
    rcases h with h | h <;> simp [isAllowedUrl, h]
  · intro p hosts h1 h2 h3 h4
    simp [isAllowedUrl, h1, h2, h3, h4]

/-- Witness for C7: an unparseable input is rejected for a nonempty
allowlist; a data: URL is accepted against an empty allowlist; an ftp:
URL is rejected even when its host is allowlisted; an https: URL is
decided by the allowlist scan. -/
theorem c7_scheme_gate_witness :
    isAllowedUrl none ["example.com"] = false
  ∧ isAllowedUrl (some ⟨"data:", ""⟩) [] = true
  ∧ isAllowedUrl (some ⟨"ftp:", "example.com"⟩) ["example.com"] = false
  ∧ isAllowedUrl (some ⟨"https:", "example.com"⟩) ["example.com"]
      = ["example.com"].any (fun allowed => hostMatches (toLowerJS "example.com") allowed) := by
  refine ⟨?_, ?_, ?_, ?_⟩
  · exact c7_scheme_gate.1 ["example.com"]
  · exact c7_scheme_gate.2.1 ⟨"data:", ""⟩ [] (Or.inl (by decide))
  · exact c7_scheme_gate.2.2.1 ⟨"ftp:", "example.com"⟩ ["example.com"]
      (by decide) (by decide) (by decide) (by decide)
  · exact c7_scheme_gate.2.2.2 ⟨"https:", "example.com"⟩ ["example.com"]
      (Or.inr (by decide))

/-! ## Claims about the lockdown action handlers -/

/-- Claim C3: on an existing session, a goto url that is missing, empty, or
over 2048 characters is answered 400 for every allowlist and parse
function (so before any allowlist check) and never navigates; a url the
matcher rejects is answered 403 with `page.goto` never invoked; an
allowed url reaches `page.goto`; and globally, only an allowed url is
ever navigated to. -/
theorem c3_goto_validation :
    (∀ (pages : List String) (name : String) (urlField : Option JsVal)
        (parse : String → Option ParsedUrl) (hosts : List String),
      pages.contains name = true →
      (∀ s, urlField = some (JsVal.str s) → s.length = 0 ∨ 2048 < s.length) →
      gotoHandler pages name urlField parse hosts = ⟨400, none⟩)
  ∧ (∀ (pages : List String) (name url : String)
        (parse : String → Option ParsedUrl) (hosts : List String),
      pages.contains name = true →
      url.length ≠ 0 → ¬ 2048 < url.length →
      isAllowedUrl (parse url) hosts = false →
      gotoHandler pages name (some (JsVal.str url)) parse hosts = ⟨403, none⟩)
  ∧ (∀ (pages : List String) (name url : String)
        (parse : String → Option ParsedUrl) (hosts : List String),
      pages.contains name = true →
      url.length ≠ 0 → ¬ 2048 < url.length →
      isAllowedUrl (parse url) hosts = true →
      gotoHandler pages name (some (JsVal.str url)) parse hosts = ⟨200, some url⟩)
  ∧ (∀ (pages : List String) (name : String) (urlField : Option JsVal)
        (parse : String → Option ParsedUrl) (hosts : List String) (url : String),
      (gotoHandler pages name urlField parse hosts).navigated = some url →
      isAllowedUrl (parse url) hosts = true) := by
  refine ⟨?_, ?_, ?_, ?_⟩
  · intro pages name urlField parse hosts hin hbad
    have hm : name ∈ pages := by simpa using hin
    match urlField with
    | none => simp [gotoHandler, hm]
    | some JsVal.other => simp [gotoHandler, hm]
    | some (JsVal.bool b) => simp [gotoHandler, hm]
    | some (JsVal.str s) =>
      have := hbad s rfl
      simp [gotoHandler, hm, this]
  · intro pages name url parse hosts hin h0 h1 hallow
    have hm : name ∈ pages := by simpa using hin
    simp [gotoHandler, hm, h0, h1, hallow]
  · intro pages name url parse hosts hin h0 h1 hallow
    have hm : name ∈ pages := by simpa using hin
    simp [gotoHandler, hm, h0, h1, hallow]
  · intro pages name urlField parse hosts url hnav
    by_cases hin : name ∈ pages
    · match urlField with
      | none => simp [gotoHandler, hin] at hnav
      | some JsVal.other => simp [gotoHandler, hin] at hnav
      | some (JsVal.bool b) => simp [gotoHandler, hin] at hnav
      | some (JsVal.str s) =>
        by_cases hlen : s.length = 0 ∨ 2048 < s.length
        · simp [gotoHandler, hin, hlen] at hnav
        · by_cases hallow : isAllowedUrl (parse s) hosts = false
          · simp [gotoHandler, hin, hlen, hallow] at hnav
          · have hs : isAllowedUrl (parse s) hosts = true := by
              revert hallow
              cases isAllowedUrl (parse s) hosts <;> simp
            have hurl : s = url := by
              simp [gotoHandler, hin, hlen, hs] at hnav
              exact hnav
            rw [← hurl]
            exact hs
    · simp [gotoHandler, hin] at hnav

/-- Witness for C3 at concrete inputs: an over-length url is answered 400
under an allowlist and parse function that would accept it; a url
parsing to a non-allowlisted host is answered 403 without navigation;
an allowlisted localhost url is navigated to. -/
theorem c3_goto_validation_witness :
    gotoHandler ["a"] "a" (some (JsVal.str (String.mk (List.replicate 2049 'u'))))
        (fun _ => some ⟨"https:", "localhost"⟩) ["localhost"] = ⟨400, none⟩
  ∧ gotoHandler ["a"] "a" (some (JsVal.str "https://evil.com/"))
        (fun _ => some ⟨"https:", "evil.com"⟩) ["localhost"] = ⟨403, none⟩
  ∧ gotoHandler ["a"] "a" (some (JsVal.str "https://localhost/"))
        (fun _ => some ⟨"https:", "localhost"⟩) ["localhost"]
      = ⟨200, some "https://localhost/"⟩ := by
  refine ⟨?_, ?_, ?_⟩
  · exact c3_goto_validation.1 ["a"] "a" _ _ ["localhost"] (by decide)
      (by
        intro s hs
        cases hs
        right
        show 2048 < (List.replicate 2049 'u').length
        rw [List.length_replicate]
        omega)
  · exact c3_goto_validation.2.1 ["a"] "a" "https://evil.com/" _ ["localhost"]
      (by decide) (by decide) (by decide) (by decide)
  · exact c3_goto_validation.2.2.1 ["a"] "a" "https://localhost/" _ ["localhost"]
      (by decide) (by decide) (by decide) (by decide)

/-- Counterexample to claim C2: with an existing session and a
shape-correct reference, a click-ref before any snapshot (no reference
table) is answered 500 "internal error" — the Internal kind — not the
claimed PreconditionFailed kind, and a reference absent from the current
table is also answered 500 "internal error", not the claimed
NotFound 404: the in-page lookup throws and the rejected promise falls
through to the catch-all `asyncHandler`. -/
theorem c2_counterexample :
    clickRefHandler ["a"] "a" (some (JsVal.str "e1")) none
      = ⟨500, some "internal error", false⟩
  ∧ clickRefHandler ["a"] "a" (some (JsVal.str "e999")) (some [("e1", RefEntry.element)])
      = ⟨500, some "internal error", false⟩
  ∧ (clickRefHandler ["a"] "a" (some (JsVal.str "e999"))
        (some [("e1", RefEntry.element)])).status ≠ 404 := by
  refine ⟨by decide, by decide, by decide⟩

/-- Claim C2 as amended: on an existing session with a shape-correct
reference, a missing reference table and an absent reference both make
the in-page lookup throw, which the catch-all handler answers
500 "internal error" (the Internal kind); a reference that resolves to a
value that is no longer a live element is answered 404; only on success
is the DOM click or fill performed — for both click-ref and fill-ref. -/
theorem c2_ref_resolution :
    (∀ (pages : List String) (name ref : String),
      pages.contains name = true → refShapeOk ref = true →
      clickRefHandler pages name (some (JsVal.str ref)) none
        = ⟨500, some "internal error", false⟩)
  ∧ (∀ (pages : List String) (name ref : String) (refs : List (String × RefEntry)),
      pages.contains name = true → refShapeOk ref = true →
      refs.lookup ref = none →
      clickRefHandler pages name (some (JsVal.str ref)) (some refs)
        = ⟨500, some "internal error", false⟩)
  ∧ (∀ (pages : List String) (name ref : String) (refs : List (String × RefEntry)),
      pages.contains name = true → refShapeOk ref = true →
      refs.lookup ref = some RefEntry.detached →
      clickRefHandler pages name (some (JsVal.str ref)) (some refs)
        = ⟨404, some "ref did not resolve to an element", false⟩)
  ∧ (∀ (pages : List String) (name ref : String) (refs : List (String × RefEntry)),
      pages.contains name = true → refShapeOk ref = true →
      refs.lookup ref = some RefEntry.element →
      clickRefHandler pages name (some (JsVal.str ref)) (some refs)
        = ⟨200, none, true⟩)
  ∧ (∀ (pages : List String) (name : String) (refField : Option JsVal)
        (table : Option (List (String × RefEntry))),
      (clickRefHandler pages name refField table).acted = true →
      (clickRefHandler pages name refField table).status = 200)
  ∧ (∀ (pages : List String) (name ref text : String),
      pages.contains name = true → refShapeOk ref = true →
      fillRefHandler pages name (some (JsVal.str ref)) (some (JsVal.str text)) none
        = ⟨500, some "internal error", false⟩)
  ∧ (∀ (pages : List String) (name ref text : String) (refs : List (String × RefEntry)),
      pages.contains name = true → refShapeOk ref = true →
      refs.lookup ref = none →
      fillRefHandler pages name (some (JsVal.str ref)) (some (JsVal.str text)) (some refs)
        = ⟨500, some "internal error", false⟩)
  ∧ (∀ (pages : List String) (name ref text : String) (refs : List (String × RefEntry)),
      pages.contains name = true → refShapeOk ref = true →
      refs.lookup ref = some RefEntry.detached →
      fillRefHandler pages name (some (JsVal.str ref)) (some (JsVal.str text)) (some refs)
        = ⟨404, some "ref did not resolve to an element", false⟩)
  ∧ (∀ (pages : List String) (name ref text : String) (refs : List (String × RefEntry)),
      pages.contains name = true → refShapeOk ref = true →
      refs.lookup ref = some RefEntry.element →
      fillRefHandler pages name (some (JsVal.str ref)) (some (JsVal.str text)) (some refs)
        = ⟨200, none, true⟩)
  ∧ (∀ (pages : List String) (name : String) (refField textField : Option JsVal)
        (table : Option (List (String × RefEntry))),
      (fillRefHandler pages name refField textField table).acted = true →
      (fillRefHandler pages name refField textField table).status = 200) := by
  refine ⟨?_, ?_, ?_, ?_, ?_, ?_, ?_, ?_, ?_, ?_⟩
  · intro pages name ref hin hshape
    have hm : name ∈ pages := by simpa using hin
    simp [clickRefHandler, hm, hshape]
  · intro pages name ref refs hin hshape hlook
    have hm : name ∈ pages := by simpa using hin
    simp [clickRefHandler, hm, hshape, hlook]
  · intro pages name ref refs hin hshape hlook
    have hm : name ∈ pages := by simpa using hin
    simp [clickRefHandler, hm, hshape, hlook]
  · intro pages name ref refs hin hshape hlook
    have hm : name ∈ pages := by simpa using hin
    simp [clickRefHandler, hm, hshape, hlook]
  · intro pages name refField table hact
    by_cases hin : name ∈ pages
    · match refField with
      | none => simp [clickRefHandler, hin] at hact
      | some JsVal.other => simp [clickRefHandler, hin] at hact
      | some (JsVal.bool b) => simp [clickRefHandler, hin] at hact
      | some (JsVal.str ref) =>
        by_cases hshape : refShapeOk ref
        · match table with
          | none => simp [clickRefHandler, hin, hshape] at hact
          | some refs =>
            match hl : refs.lookup ref with
            | none => simp [clickRefHandler, hin, hshape, hl] at hact
            | some RefEntry.detached => simp [clickRefHandler, hin, hshape, hl] at hact
            | some RefEntry.element => simp [clickRefHandler, hin, hshape, hl]
        · simp [clickRefHandler, hin, hshape] at hact
    · simp [clickRefHandler, hin] at hact
  · intro pages name ref text hin hshape
    have hm : name ∈ pages := by simpa using hin
    simp [fillRefHandler, hm, hshape]
  · intro pages name ref text refs hin hshape hlook
    have hm : name ∈ pages := by simpa using hin
    simp [fillRefHandler, hm, hshape, hlook]
  · intro pages name ref text refs hin hshape hlook
    have hm : name ∈ pages := by simpa using hin
    simp [fillRefHandler, hm, hshape, hlook]
  · intro pages name ref text refs hin hshape hlook
    have hm : name ∈ pages := by simpa using hin
    simp [fillRefHandler, hm, hshape, hlook]
  · intro pages name refField textField table hact
    by_cases hin : name ∈ pages
    · match refField with
      | none => simp [fillRefHandler, hin] at hact
      | some JsVal.other => simp [fillRefHandler, hin] at hact
      | some (JsVal.bool b) => simp [fillRefHandler, hin] at hact
      | some (JsVal.str ref) =>
        by_cases hshape : refShapeOk ref
        · match textField with
          | none => simp [fillRefHandler, hin, hshape] at hact
          | some JsVal.other => simp [fillRefHandler, hin, hshape] at hact
          | some (JsVal.bool b) => simp [fillRefHandler, hin, hshape] at hact
          | some (JsVal.str text) =>
            match table with
            | none => simp [fillRefHandler, hin, hshape] at hact
            | some refs =>
              match hl : refs.lookup ref with
              | none => simp [fillRefHandler, hin, hshape, hl] at hact
              | some RefEntry.detached => simp [fillRefHandler, hin, hshape, hl] at hact
              | some RefEntry.element => simp [fillRefHandler, hin, hshape, hl]
        · simp [fillRefHandler, hin, hshape] at hact
    · simp [fillRefHandler, hin] at hact

/-- Witness for the amended C2 at concrete inputs, covering the missing
table, the absent reference, the stale reference and the live
reference, for click and fill. -/
theorem c2_ref_resolution_witness :
    clickRefHandler ["a"] "a" (some (JsVal.str "e2")) none
      = ⟨500, some "internal error", false⟩
  ∧ clickRefHandler ["a"] "a" (some (JsVal.str "e2")) (some [("e1", RefEntry.element)])
      = ⟨500, some "internal error", false⟩
  ∧ clickRefHandler ["a"] "a" (some (JsVal.str "e1")) (some [("e1", RefEntry.detached)])
      = ⟨404, some "ref did not resolve to an element", false⟩
  ∧ clickRefHandler ["a"] "a" (some (JsVal.str "e1")) (some [("e1", RefEntry.element)])
      = ⟨200, none, true⟩
  ∧ (clickRefHandler ["a"] "a" (some (JsVal.str "e1"))
        (some [("e1", RefEntry.element)])).status = 200
  ∧ fillRefHandler ["a"] "a" (some (JsVal.str "e2")) (some (JsVal.str "hi")) none
      = ⟨500, some "internal error", false⟩
  ∧ fillRefHandler ["a"] "a" (some (JsVal.str "e2")) (some (JsVal.str "hi"))
        (some [("e1", RefEntry.element)])
      = ⟨500, some "internal error", false⟩
  ∧ fillRefHandler ["a"] "a" (some (JsVal.str "e1")) (some (JsVal.str "hi"))
        (some [("e1", RefEntry.detached)])
      = ⟨404, some "ref did not resolve to an element", false⟩
  ∧ fillRefHandler ["a"] "a" (some (JsVal.str "e1")) (some (JsVal.str "hi"))
        (some [("e1", RefEntry.element)])
      = ⟨200, none, true⟩
  ∧ (fillRefHandler ["a"] "a" (some (JsVal.str "e1")) (some (JsVal.str "hi"))
        (some [("e1", RefEntry.element)])).status = 200 := by
  refine ⟨?_, ?_, ?_, ?_, ?_, ?_, ?_, ?_, ?_, ?_⟩
  · exact c2_ref_resolution.1 ["a"] "a" "e2" (by decide) (by decide)
  · exact c2_ref_resolution.2.1 ["a"] "a" "e2" [("e1", RefEntry.element)]
      (by decide) (by decide) (by decide)
  · exact c2_ref_resolution.2.2.1 ["a"] "a" "e1" [("e1", RefEntry.detached)]
      (by decide) (by decide) (by decide)
  · exact c2_ref_resolution.2.2.2.1 ["a"] "a" "e1" [("e1", RefEntry.element)]
      (by decide) (by decide) (by decide)
  · exact c2_ref_resolution.2.2.2.2.1 ["a"] "a" (some (JsVal.str "e1"))
      (some [("e1", RefEntry.element)]) (by decide)
  · exact c2_ref_resolution.2.2.2.2.2.1 ["a"] "a" "e2" "hi" (by decide) (by decide)
  · exact c2_ref_resolution.2.2.2.2.2.2.1 ["a"] "a" "e2" "hi" [("e1", RefEntry.element)]
      (by decide) (by decide) (by decide)
  · exact c2_ref_resolution.2.2.2.2.2.2.2.1 ["a"] "a" "e1" "hi" [("e1", RefEntry.detached)]
      (by decide) (by decide) (by decide)
  · exact c2_ref_resolution.2.2.2.2.2.2.2.2.1 ["a"] "a" "e1" "hi" [("e1", RefEntry.element)]
      (by decide) (by decide) (by decide)
  · exact c2_ref_resolution.2.2.2.2.2.2.2.2.2 ["a"] "a" (some (JsVal.str "e1"))
      (some (JsVal.str "hi")) (some [("e1", RefEntry.element)]) (by decide)

/-! ## Claims about screenshot path confinement -/

theorem normStep_plain (acc : List String) (seg : String)
    (h1 : seg ≠ "") (h2 : seg ≠ ".") (h3 : seg ≠ "..") :
    normStep acc seg = acc ++ [seg] := by
  simp [normStep, h1, h2, h3]

theorem normalizeSegs_append (a b : List String) :
    normalizeSegs (a ++ b) = b.foldl normStep (normalizeSegs a) := by
  simp [normalizeSegs, List.foldl_append]

/-- A successful `resolveTmpPath` returns exactly the normalised
concatenation, and it is prefixed by the artifact root. -/
theorem resolveTmpPath_ok_shape (tmpDir : List String) (p : String)
    (abs : List String) (h : resolveTmpPath tmpDir p = Except.ok abs) :
    abs = normalizeSegs (tmpDir ++ splitSlash (stripLeadingSeps p))
    ∧ (normalizeSegs tmpDir).isPrefixOf abs = true := by
  simp only [resolveTmpPath] at h
  split_ifs at h with h1 h2 h3
  · rw [Except.ok.injEq] at h
    exact ⟨h.symm, h ▸ h3⟩

/-- When clean resolution yields two ordinary segments under the root,
`resolveTmpPath` succeeds with root ++ both segments. -/
theorem resolveTmpPath_two_plain (tmpDir : List String) (p s1 s2 : String)
    (hne : p ≠ "") (hnull : p.data.contains '\x00' = false)
    (hsplit : splitSlash (stripLeadingSeps p) = [s1, s2])
    (h1 : s1 ≠ "" ∧ s1 ≠ "." ∧ s1 ≠ "..")
    (h2 : s2 ≠ "" ∧ s2 ≠ "." ∧ s2 ≠ "..") :
    resolveTmpPath tmpDir p = Except.ok (normalizeSegs tmpDir ++ [s1, s2]) := by
  have habs : normalizeSegs (tmpDir ++ [s1, s2]) = normalizeSegs tmpDir ++ [s1, s2] := by
    rw [normalizeSegs_append, List.foldl_cons, List.foldl_cons, List.foldl_nil,
      normStep_plain _ _ h1.1 h1.2.1 h1.2.2, normStep_plain _ _ h2.1 h2.2.1 h2.2.2,
      List.append_assoc]
    rfl
  have hpre : (normalizeSegs tmpDir).isPrefixOf (normalizeSegs tmpDir ++ [s1, s2]) = true :=
    List.isPrefixOf_iff_prefix.mpr ⟨[s1, s2], rfl⟩
  have hnm : '\x00' ∉ p.data := by simpa using hnull
  simp [resolveTmpPath, hne, hnm, hsplit, habs, hpre]

theorem dropWhile_sep_idem (l : List Char) :
    (l.dropWhile isSepChar).dropWhile isSepChar = l.dropWhile isSepChar := by
  induction l with
  | nil => rfl
  | cons a t ih =>
    by_cases h : isSepChar a
    · simp [List.dropWhile_cons, h, ih]
    · simp [List.dropWhile_cons, h]

theorem contains_dropWhile_false (l : List Char) (c : Char) (q : Char → Bool)
    (h : l.contains c = false) : (l.dropWhile q).contains c = false := by
  rw [Bool.eq_false_iff] at h ⊢
  intro hc
  apply h
  have hm : c ∈ l.dropWhile q := by simpa using hc
  have : c ∈ l := (List.dropWhile_sublist q).subset hm
  simpa using this

/-- Claim C4: on an existing session, a screenshot path containing a null
byte is rejected and nothing is written; a path whose resolution against
the artifact root escapes the root is rejected and nothing is written;
any path that is written is written inside the root with the response
carrying the resolved absolute path; and `shots/a.png` succeeds,
resolving to root ++ shots/a.png. -/
theorem c4_screenshot_confinement :
    (∀ (pages : List String) (name p : String) (fp : Option JsVal)
        (tmpDir : List String),
      pages.contains name = true →
      p.data.contains '\x00' = true →
      (screenshotHandler pages name (some (JsVal.str p)) fp tmpDir).written = none
      ∧ (screenshotHandler pages name (some (JsVal.str p)) fp tmpDir).status ≠ 200)
  ∧ (∀ (pages : List String) (name p : String) (fp : Option JsVal)
        (tmpDir : List String),
      pages.contains name = true →
      (normalizeSegs tmpDir).isPrefixOf
          (normalizeSegs (tmpDir ++ splitSlash (stripLeadingSeps p))) = false →
      (screenshotHandler pages name (some (JsVal.str p)) fp tmpDir).written = none
      ∧ (screenshotHandler pages name (some (JsVal.str p)) fp tmpDir).status ≠ 200)
  ∧ (∀ (pages : List String) (name : String) (pf fp : Option JsVal)
        (tmpDir abs : List String),
      (screenshotHandler pages name pf fp tmpDir).written = some abs →
      (normalizeSegs tmpDir).isPrefixOf abs = true
      ∧ (screenshotHandler pages name pf fp tmpDir).status = 200)
  ∧ (∀ (pages : List String) (name : String) (fp : Option JsVal)
        (tmpDir : List String),
      pages.contains name = true →
      screenshotHandler pages name (some (JsVal.str "shots/a.png")) fp tmpDir
        = ⟨200, some (normalizeSegs tmpDir ++ ["shots", "a.png"]), fullPageBool fp⟩) := by
  refine ⟨?_, ?_, ?_, ?_⟩
  · intro pages name p fp tmpDir hin hnull
    have hm : name ∈ pages := by simpa using hin
    by_cases hlen : p.length = 0 ∨ 256 < p.length
    · simp [screenshotHandler, hm, hlen]
    · have hp : p ≠ "" := by
        intro he
        subst he
        simp at hlen
      have hr : resolveTmpPath tmpDir p = Except.error "invalid path" := by
        have hnm : '\x00' ∈ p.data := by simpa using hnull
        simp [resolveTmpPath, hp, hnm]
      simp [screenshotHandler, hm, hlen, hr]
  · intro pages name p fp tmpDir hin hesc
    have hm : name ∈ pages := by simpa using hin
    by_cases hlen : p.length = 0 ∨ 256 < p.length
    · simp [screenshotHandler, hm, hlen]
    · match hr : resolveTmpPath tmpDir p with
      | Except.error e => simp [screenshotHandler, hm, hlen, hr]
      | Except.ok abs =>
        have hsh := resolveTmpPath_ok_shape tmpDir p abs hr
        rw [hsh.1] at hsh
        rw [hsh.2] at hesc
        cases hesc
  · intro pages name pf fp tmpDir abs hw
    by_cases hm : name ∈ pages
    · match pf with
      | none => simp [screenshotHandler, hm] at hw
      | some JsVal.other => simp [screenshotHandler, hm] at hw
      | some (JsVal.bool b) => simp [screenshotHandler, hm] at hw
      | some (JsVal.str p) =>
        by_cases hlen : p.length = 0 ∨ 256 < p.length
        · simp [screenshotHandler, hm, hlen] at hw
        · match hr : resolveTmpPath tmpDir p with
          | Except.error e => simp [screenshotHandler, hm, hlen, hr] at hw
          | Except.ok a =>
            have ha : a = abs := by
              simp [screenshotHandler, hm, hlen, hr] at hw
              exact hw
            subst ha
            exact ⟨(resolveTmpPath_ok_shape tmpDir p a hr).2,
              by simp [screenshotHandler, hm, hlen, hr]⟩
    · simp [screenshotHandler, hm] at hw
  · intro pages name fp tmpDir hin
    have hm : name ∈ pages := by simpa using hin
    have hr : resolveTmpPath tmpDir "shots/a.png"
        = Except.ok (normalizeSegs tmpDir ++ ["shots", "a.png"]) :=
      resolveTmpPath_two_plain tmpDir "shots/a.png" "shots" "a.png"
        (by decide) (by decide) (by decide)
        ⟨by decide, by decide, by decide⟩ ⟨by decide, by decide, by decide⟩
    have hlen : ¬ (("shots/a.png" : String).length = 0 ∨ 256 < ("shots/a.png" : String).length) := by
      decide
    simp [screenshotHandler, hm, hlen, hr]

/-- Witness for C4 with the artifact root at /tmp/work: a null byte is
rejected, ../../etc/passwd escapes and is rejected, shots/a.png resolves
to /tmp/work/shots/a.png inside the root. -/
theorem c4_screenshot_confinement_witness :
    (screenshotHandler ["a"] "a" (some (JsVal.str "a\x00b")) none
        ["tmp", "work"]).written = none
  ∧ (screenshotHandler ["a"] "a" (some (JsVal.str "../../etc/passwd")) none
        ["tmp", "work"]).written = none
  ∧ (screenshotHandler ["a"] "a" (some (JsVal.str "../../etc/passwd")) none
        ["tmp", "work"]).status ≠ 200
  ∧ screenshotHandler ["a"] "a" (some (JsVal.str "shots/a.png")) none
        ["tmp", "work"]
      = ⟨200, some ["tmp", "work", "shots", "a.png"], false⟩
  ∧ (["tmp", "work"] : List String).isPrefixOf ["tmp", "work", "shots", "a.png"] = true := by
  refine ⟨?_, ?_, ?_, ?_, ?_⟩
  · exact (c4_screenshot_confinement.1 ["a"] "a" "a\x00b" none ["tmp", "work"]
      (by decide) (by decide)).1
  · exact (c4_screenshot_confinement.2.1 ["a"] "a" "../../etc/passwd" none
      ["tmp", "work"] (by decide) (by decide)).1
  · exact (c4_screenshot_confinement.2.1 ["a"] "a" "../../etc/passwd" none
      ["tmp", "work"] (by decide) (by decide)).2
  · have h := c4_screenshot_confinement.2.2.2 ["a"] "a" none ["tmp", "work"] (by decide)
    rw [h]
    rfl
  · exact (c4_screenshot_confinement.2.2.1 ["a"] "a" (some (JsVal.str "shots/a.png"))
      none ["tmp", "work"] ["tmp", "work", "shots", "a.png"] (by decide)).1

/-- Claim C10 (implicit in `resolveTmpPath`): a path beginning with one or
more slash or backslash characters has those leading separators stripped
and the remainder resolved relative to the artifact root; in particular
the absolute path /etc/passwd is not rejected as escaping the root but
succeeds, writing to root ++ etc/passwd, inside the root. -/
theorem c10_leading_separators_stripped :
    (∀ (tmpDir : List String) (s : String),
      s.data.takeWhile isSepChar ≠ [] →
      s.data.contains '\x00' = false →
      (⟨s.data.dropWhile isSepChar⟩ : String) ≠ "" →
      resolveTmpPath tmpDir s = resolveTmpPath tmpDir ⟨s.data.dropWhile isSepChar⟩)
  ∧ (∀ (pages : List String) (name : String) (fp : Option JsVal)
        (tmpDir : List String),
      pages.contains name = true →
      screenshotHandler pages name (some (JsVal.str "/etc/passwd")) fp tmpDir
        = ⟨200, some (normalizeSegs tmpDir ++ ["etc", "passwd"]), fullPageBool fp⟩)
  ∧ (∀ tmpDir : List String,
      (normalizeSegs tmpDir).isPrefixOf
          (normalizeSegs tmpDir ++ ["etc", "passwd"]) = true) := by
  refine ⟨?_, ?_, ?_⟩
  · intro tmpDir s htake hnull hrest
    have hs : s ≠ "" := by
      intro he
      subst he
      exact htake rfl
    have hnull2 : (⟨s.data.dropWhile isSepChar⟩ : String).data.contains '\x00' = false :=
      contains_dropWhile_false s.data '\x00' isSepChar hnull
    have hclean : stripLeadingSeps (⟨s.data.dropWhile isSepChar⟩ : String)
        = stripLeadingSeps s :=
      congrArg String.mk (dropWhile_sep_idem s.data)
    have hn1 : '\x00' ∉ s.data := by simpa using hnull
    have hn2 : '\x00' ∉ s.data.dropWhile isSepChar := by simpa using hnull2
    simp [resolveTmpPath, hs, hrest, hn1, hn2, hclean]
  · intro pages name fp tmpDir hin
    have hm : name ∈ pages := by simpa using hin
    have hr : resolveTmpPath tmpDir "/etc/passwd"
        = Except.ok (normalizeSegs tmpDir ++ ["etc", "passwd"]) :=
      resolveTmpPath_two_plain tmpDir "/etc/passwd" "etc" "passwd"
        (by decide) (by decide) (by decide)
        ⟨by decide, by decide, by decide⟩ ⟨by decide, by decide, by decide⟩
    have hlen : ¬ (("/etc/passwd" : String).length = 0 ∨ 256 < ("/etc/passwd" : String).length) := by
      decide
    simp [screenshotHandler, hm, hlen, hr]
  · intro tmpDir
    exact List.isPrefixOf_iff_prefix.mpr ⟨["etc", "passwd"], rfl⟩

/-- Witness for C10: //shots/a.png resolves exactly as shots/a.png does,
and /etc/passwd succeeds under the root /tmp/work, written inside it. -/
theorem c10_leading_separators_stripped_witness :
    resolveTmpPath ["tmp", "work"] "//shots/a.png"
      = resolveTmpPath ["tmp", "work"] "shots/a.png"
  ∧ screenshotHandler ["a"] "a" (some (JsVal.str "/etc/passwd")) none ["tmp", "work"]
      = ⟨200, some ["tmp", "work", "etc", "passwd"], false⟩ := by
  constructor
  · have h := c10_leading_separators_stripped.1 ["tmp", "work"] "//shots/a.png"
      (by decide) (by decide) (by decide)
    rw [h]
    rfl
  · have h := c10_leading_separators_stripped.2.1 ["a"] "a" none ["tmp", "work"]
      (by decide)
    rw [h]
    rfl

/-! ## Claims about the session registry -/

theorem lookup_filter_out (l : List (String × Nat)) (n : String) :
    (l.filter (fun e => e.1 != n)).lookup n = none := by
  induction l with
  | nil => rfl
  | cons e t ih =>
    by_cases h : e.1 = n
    · simp [List.filter_cons, h, ih]
    · have hb : (e.1 != n) = true := bne_iff_ne.mpr h
      have hk : (n == e.1) = false := beq_eq_false_iff_ne.mpr (Ne.symm h)
      simp [List.filter_cons, hb, List.lookup, hk, ih]

/-- Claim C8: deleting an existing session closes its page, removes the
entry and reports success; deleting an absent name changes nothing and
reports 404 with no page closed; hence a second delete of the same name
is always a no-op answered 404. -/
theorem c8_delete_idempotent :
    (∀ (registry : List (String × Nat)) (name : String) (pid : Nat),
      registry.lookup name = some pid →
      deleteHandler registry name
        = (registry.filter (fun e => e.1 != name), ⟨200, some pid⟩)
      ∧ ((deleteHandler registry name).1.lookup name = none))
  ∧ (∀ (registry : List (String × Nat)) (name : String),
      registry.lookup name = none →
      deleteHandler registry name = (registry, ⟨404, none⟩))
  ∧ (∀ (registry : List (String × Nat)) (name : String),
      deleteHandler (deleteHandler registry name).1 name
        = ((deleteHandler registry name).1, ⟨404, none⟩)) := by
  refine ⟨?_, ?_, ?_⟩
  · intro registry name pid h
    refine ⟨by simp [deleteHandler, h], ?_⟩
    have h1 : (deleteHandler registry name).1 = registry.filter (fun e => e.1 != name) := by
      simp [deleteHandler, h]
    rw [h1]
    exact lookup_filter_out registry name
  · intro registry name h
    simp [deleteHandler, h]
  · intro registry name
    match h : registry.lookup name with
    | some pid =>
      have h1 : (deleteHandler registry name).1 = registry.filter (fun e => e.1 != name) := by
        simp [deleteHandler, h]
      rw [h1]
      simp [deleteHandler, lookup_filter_out registry name]
    | none =>
      have h1 : (deleteHandler registry name).1 = registry := by
        simp [deleteHandler, h]
      rw [h1]
      simp [deleteHandler, h]

/-- Witness for C8: deleting x closes page 7 and removes it; deleting it
again (or deleting an unknown name) answers 404 and changes nothing. -/
theorem c8_delete_idempotent_witness :
    deleteHandler [("x", 7)] "x" = ([], ⟨200, some 7⟩)
  ∧ (deleteHandler [("x", 7)] "x").1.lookup "x" = none
  ∧ deleteHandler [("x", 7)] "y" = ([("x", 7)], ⟨404, none⟩)
  ∧ deleteHandler (deleteHandler [("x", 7)] "x").1 "x"
      = ((deleteHandler [("x", 7)] "x").1, ⟨404, none⟩) := by
  refine ⟨?_, ?_, ?_, ?_⟩
  · have h := (c8_delete_idempotent.1 [("x", 7)] "x" 7 (by decide)).1
    rw [h]
    rfl
  · exact (c8_delete_idempotent.1 [("x", 7)] "x" 7 (by decide)).2
  · exact c8_delete_idempotent.2.1 [("x", 7)] "y" (by decide)
  · exact c8_delete_idempotent.2.2 [("x", 7)] "x"

/-- Claim C5, checked against the code: the POST /pages handler reads the
registry (`registry.get`), then awaits `context.newPage()` before writing
the entry back (`registry.set`) — an unsynchronised check-then-create.
Under the cooperative-interleaving semantics of spec section 5, the
schedule in which the second request's registry lookup runs while the
first request is suspended at `newPage` creates two pages for the same
name, and the two callers receive different target ids — contradicting
the claim that exactly one page is created and both callers observe the
same target id.  A serialised schedule, by contrast, creates one page
and both callers see the same id. -/
theorem c5_get_or_create_race :
    (runSched [false, true, false, true] ⟨none, 0⟩ ReqPhase.start ReqPhase.start).1.pagesCreated = 2
  ∧ (runSched [false, true, false, true] ⟨none, 0⟩ ReqPhase.start ReqPhase.start).2.1
      = ReqPhase.done (tidOf 0)
  ∧ (runSched [false, true, false, true] ⟨none, 0⟩ ReqPhase.start ReqPhase.start).2.2
      = ReqPhase.done (tidOf 1)
  ∧ tidOf 0 ≠ tidOf 1
  ∧ (runSched [false, false, true] ⟨none, 0⟩ ReqPhase.start ReqPhase.start).1.pagesCreated = 1
  ∧ (runSched [false, false, true] ⟨none, 0⟩ ReqPhase.start ReqPhase.start).2.1
      = ReqPhase.done (tidOf 0)
  ∧ (runSched [false, false, true] ⟨none, 0⟩ ReqPhase.start ReqPhase.start).2.2
      = ReqPhase.done (tidOf 0) := by
  refine ⟨by decide, by decide, by decide, by decide, by decide, by decide, by decide⟩

/-- The registry invariant holds initially and is preserved by every
registry event. -/
theorem sessInv_applyOp (lockdown : Bool) (resolveId : Nat → String)
    (st : SessState) (op : RegOp) (h : SessInv lockdown resolveId st) :
    SessInv lockdown resolveId (applyOp lockdown resolveId st op) := by
  obtain ⟨hall, hpair⟩ := h
  match op with
  | RegOp.create n =>
    match hl : st.entries.lookup n with
    | some s =>
      simp only [applyOp, hl]
      exact ⟨hall, hpair⟩
    | none =>
      simp only [applyOp, hl]
      constructor
      · intro e he
        rcases List.mem_cons.mp he with he | he
        · subst he
          exact ⟨Nat.lt_succ_self _, rfl⟩
        · exact ⟨Nat.lt_succ_of_lt (hall e he).1, (hall e he).2⟩
      · rw [List.pairwise_cons]
        refine ⟨?_, hpair⟩
        intro b hb
        exact Nat.ne_of_gt (hall b hb).1
  | RegOp.remove n =>
    simp only [applyOp]
    constructor
    · intro e he
      exact hall e (List.mem_of_mem_filter he)
    · exact List.Pairwise.sublist (List.filter_sublist _) hpair
  | RegOp.closed n =>
    simp only [applyOp]
    constructor
    · intro e he
      exact hall e (List.mem_of_mem_filter he)
    · exact List.Pairwise.sublist (List.filter_sublist _) hpair

theorem sessInv_foldl (lockdown : Bool) (resolveId : Nat → String)
    (ops : List RegOp) (st : SessState) (h : SessInv lockdown resolveId st) :
    SessInv lockdown resolveId (ops.foldl (applyOp lockdown resolveId) st) := by
  induction ops generalizing st with
  | nil => exact h
  | cons op rest ih => exact ih _ (sessInv_applyOp lockdown resolveId st op h)

theorem sessInv_runOps (lockdown : Bool) (resolveId : Nat → String)
    (ops : List RegOp) :
    SessInv lockdown resolveId (runOps lockdown resolveId ops) :=
  sessInv_foldl lockdown resolveId ops ⟨[], 0⟩ ⟨by simp, by simp⟩

theorem tidOf_injective (a b : Nat) (h : tidOf a = tidOf b) : a = b := by
  have hd := congrArg String.data h
  simp only [tidOf, List.cons.injEq, true_and] at hd
  have hlen := congrArg List.length hd
  simpa using hlen

theorem tidOf_ne_empty (n : Nat) : tidOf n ≠ "" := by
  intro h
  have hd := congrArg String.data h
  simp [tidOf] at hd

/-- Claim C6: over every sequence of registry events, every live entry's
stored targetId is a string, never null (so null only in lockdown,
vacuously); outside lockdown, provided the engine's target-id resolution
returns nonempty ids and distinct ids for distinct pages (the Target
Resolver contract), every stored targetId is non-empty and distinct from
every other live session's; and the get-or-create response carries the
stored target id exactly when the server is not in lockdown mode. -/
theorem c6_targetid_invariant :
    (∀ (lockdown : Bool) (resolveId : Nat → String) (ops : List RegOp),
      ∀ e ∈ (runOps lockdown resolveId ops).entries, e.2.targetId ≠ none)
  ∧ (∀ (resolveId : Nat → String) (ops : List RegOp),
      (∀ n, resolveId n ≠ "") →
      ∀ e ∈ (runOps false resolveId ops).entries, e.2.targetId ≠ some "")
  ∧ (∀ (resolveId : Nat → String) (ops : List RegOp),
      (∀ a b, resolveId a = resolveId b → a = b) →
      ∀ e f, e ∈ (runOps false resolveId ops).entries →
        f ∈ (runOps false resolveId ops).entries → e ≠ f →
        e.2.targetId ≠ f.2.targetId)
  ∧ (∀ stored : String, respTargetId true stored = none)
  ∧ (∀ stored : String, respTargetId false stored = some stored) := by
  refine ⟨?_, ?_, ?_, fun stored => rfl, fun stored => rfl⟩
  · intro lockdown resolveId ops e he
    rw [((sessInv_runOps lockdown resolveId ops).1 e he).2]
    simp
  · intro resolveId ops hne e he
    rw [((sessInv_runOps false resolveId ops).1 e he).2]
    simp [hne e.2.pageId]
  · intro resolveId ops hinj e f he hf hef
    intro heq
    have hinv := sessInv_runOps false resolveId ops
    rw [((hinv.1 e he).2), ((hinv.1 f hf).2)] at heq
    simp at heq
    have hpid := hinj _ _ heq
    have hsym : Symmetric (fun (a b : String × Sess) => a.2.pageId ≠ b.2.pageId) :=
      fun a b hab => Ne.symm hab
    exact List.Pairwise.forall hsym hinv.2 he hf hef hpid

/-- Witness for C6: two created sessions under the concrete injective,
nonempty-valued resolver `tidOf` satisfy all three invariant conjuncts,
and the response includes the id exactly outside lockdown. -/
theorem c6_targetid_invariant_witness :
    (∀ e ∈ (runOps false tidOf [RegOp.create "a", RegOp.create "b"]).entries,
      e.2.targetId ≠ none)
  ∧ (∀ e ∈ (runOps false tidOf [RegOp.create "a", RegOp.create "b"]).entries,
      e.2.targetId ≠ some "")
  ∧ (∀ e f, e ∈ (runOps false tidOf [RegOp.create "a", RegOp.create "b"]).entries →
      f ∈ (runOps false tidOf [RegOp.create "a", RegOp.create "b"]).entries →
      e ≠ f → e.2.targetId ≠ f.2.targetId)
  ∧ respTargetId true "t" = none
  ∧ respTargetId false "t" = some "t" :=
  ⟨c6_targetid_invariant.1 false tidOf [RegOp.create "a", RegOp.create "b"],
    c6_targetid_invariant.2.1 tidOf [RegOp.create "a", RegOp.create "b"] tidOf_ne_empty,
    c6_targetid_invariant.2.2.1 tidOf [RegOp.create "a", RegOp.create "b"] tidOf_injective,
    c6_targetid_invariant.2.2.2.1 "t",
    c6_targetid_invariant.2.2.2.2 "t"⟩

/-! ## Claims about shutdown -/

/-- Counterexample to claim C9's step ordering: the cleanup trace opens by
forcibly terminating the open connections, and the sole step that stops
the listener accepting new connections — `server.close()` — is the last
step of the trace, not the first.  There is no stop-accepting step ahead
of the connection termination, contradicting the claimed order. -/
theorem c9_counterexample :
    (cleanupRun false [1, 2] (fun _ => false) false).2
      = [CleanupStep.destroyConnections, CleanupStep.closePage 1 true,
         CleanupStep.closePage 2 true, CleanupStep.clearRegistry,
         CleanupStep.closeContext true, CleanupStep.closeServer]
  ∧ ((cleanupRun false [1, 2] (fun _ => false) false).2).head?
      = some CleanupStep.destroyConnections
  ∧ ((cleanupRun false [1, 2] (fun _ => false) false).2).getLast?
      = some CleanupStep.closeServer := by
  refine ⟨by decide, by decide, by decide⟩

/-- Claim C9 as amended: a first shutdown trigger performs, in order:
forcibly terminate the open connections, best-effort close every
registered page, clear the registry, best-effort close the browser
context, then close the server — which stops accepting new connections
and stops the listener as the final step; close failures never remove
or reorder later steps (the step kinds of the trace do not depend on
which closes fail); and a second trigger while the guard flag is set
performs nothing. -/
theorem c9_cleanup_order :
    (∀ (pages : List Nat) (pageFails : Nat → Bool) (ctxFails : Bool),
      cleanupRun false pages pageFails ctxFails
        = (true,
            CleanupStep.destroyConnections
              :: pages.map (fun p => CleanupStep.closePage p (!pageFails p))
              ++ [CleanupStep.clearRegistry, CleanupStep.closeContext (!ctxFails),
                  CleanupStep.closeServer]))
  ∧ (∀ (pages : List Nat) (pageFails : Nat → Bool) (ctxFails : Bool),
      ((cleanupRun false pages pageFails ctxFails).2).getLast?
        = some CleanupStep.closeServer)
  ∧ (∀ (pages : List Nat) (f g : Nat → Bool) (c d : Bool),
      ((cleanupRun false pages f c).2).map stepTag
        = ((cleanupRun false pages g d).2).map stepTag)
  ∧ (∀ (pages : List Nat) (pageFails : Nat → Bool) (ctxFails : Bool),
      cleanupRun true pages pageFails ctxFails = (true, [])) := by
  refine ⟨fun pages pageFails ctxFails => rfl, ?_, ?_, fun pages pageFails ctxFails => rfl⟩
  · intro pages pageFails ctxFails
    have hre : (cleanupRun false pages pageFails ctxFails).2
        = (CleanupStep.destroyConnections
            :: (pages.map (fun p => CleanupStep.closePage p (!pageFails p))
              ++ [CleanupStep.clearRegistry, CleanupStep.closeContext (!ctxFails)]))
          ++ [CleanupStep.closeServer] := by
      simp [cleanupRun]
    rw [hre, List.getLast?_concat]
  · intro pages f g c d
    simp [cleanupRun, List.map_map, Function.comp_def, stepTag]

/-- Witness for C9 at a concrete registry where the first page close and
the context close both fail: the trace still contains every later step,
still ends with the server close, and a second trigger is a no-op. -/
theorem c9_cleanup_order_witness :
    cleanupRun false [1, 2] (fun p => p == 1) true
      = (true,
          [CleanupStep.destroyConnections, CleanupStep.closePage 1 false,
           CleanupStep.closePage 2 true, CleanupStep.clearRegistry,
           CleanupStep.closeContext false, CleanupStep.closeServer])
  ∧ ((cleanupRun false [1, 2] (fun p => p == 1) true).2).getLast?
      = some CleanupStep.closeServer
  ∧ ((cleanupRun false [1, 2] (fun p => p == 1) true).2).map stepTag
      = ((cleanupRun false [1, 2] (fun _ => false) false).2).map stepTag
  ∧ cleanupRun true [1, 2] (fun p => p == 1) true = (true, []) := by
  refine ⟨?_, ?_, ?_, ?_⟩
  · have h := c9_cleanup_order.1 [1, 2] (fun p => p == 1) true
    rw [h]
    rfl
  · exact c9_cleanup_order.2.1 [1, 2] (fun p => p == 1) true
  · exact c9_cleanup_order.2.2.1 [1, 2] (fun p => p == 1) (fun _ => false) true false
  · exact c9_cleanup_order.2.2.2 [1, 2] (fun p => p == 1) true

end DevBrowser
